import Mathlib

/-!
Shallow embedding of the Duocmatico calendar application:
the Vuex calendar store module (`src/store/calendars.js`) and the
router route table (`src/router`).  JavaScript objects are modelled as
Lean structures with `Option` fields for properties that may be absent
(`undefined`); JSON serialization to local storage is modelled by an
explicit `Json` tree together with an encoder and decoder; network
calls are modelled by an oracle `Net` mapping each issued request to a
response or an error, and every action returns, besides the new store
state and storage content, the ordered list of requests it issued and
the outcome of the promise it returns (`Except` for reject/resolve).
-/

namespace Duocmatico

/-- JSON value trees, the image of `JSON.stringify` / the domain of
`JSON.parse` for the data this application stores. -/
inductive Json where
  | null : Json
  | bool (b : Bool) : Json
  | num (n : Int) : Json
  | str (s : String) : Json
  | arr (xs : List Json) : Json
  | obj (fields : List (String × Json)) : Json

/-- A section of a calendar: `code` is used for removal, `id` when
syncing sections to the API; otherwise opaque. -/
structure Section where
  code : String
  id : Int
deriving DecidableEq, Repr

/-- A calendar object.  Fields that a JavaScript calendar object may
lack (`undefined`) are `Option`s: `uuid`, `uid`, `name`, `is_public`
and `fromApi`; `sections` is a list. -/
structure Calendar where
  uuid : Option String
  uid : Option String
  name : Option String
  sections : List Section
  is_public : Option Bool
  fromApi : Option Bool
deriving DecidableEq, Repr

/-- JavaScript truthiness of a possibly-absent string (`undefined` and
`""` are falsy). -/
def strTruthy : Option String → Bool
  | none => false
  | some s => s ≠ ""

/-- JavaScript truthiness of a possibly-absent boolean (`undefined`
and `false` are falsy). -/
def boolTruthy : Option Bool → Bool
  | none => false
  | some b => b

/-- String interpolation of a possibly-absent value: JavaScript
renders `undefined` as the text "undefined" inside a template. -/
def jsInterp : Option String → String
  | none => "undefined"
  | some s => s

/-- The object spread `\x7b uuid: fresh, ...calendar \x7d`: the spread comes
last, so a `uuid` property carried by `calendar` (even an empty one)
overrides the freshly generated value. -/
def spreadWithUuid (fresh : String) (c : Calendar) : Calendar :=
  { c with uuid := some (c.uuid.getD fresh) }

/-! ## JSON encoding and decoding of calendars -/

/-- Emit a field only when the property is present. -/
def optField (key : String) (enc : α → Json) : Option α → List (String × Json)
  | none => []
  | some a => [(key, enc a)]

def encodeSection (s : Section) : Json :=
  .obj [("code", .str s.code), ("id", .num s.id)]

def encodeCalendar (c : Calendar) : Json :=
  .obj (optField "uuid" .str c.uuid
    ++ optField "uid" .str c.uid
    ++ optField "name" .str c.name
    ++ [("sections", .arr (c.sections.map encodeSection))]
    ++ optField "is_public" .bool c.is_public
    ++ optField "fromApi" .bool c.fromApi)

def encodeCalendars (cs : List Calendar) : Json :=
  .arr (cs.map encodeCalendar)

/-- Look a key up in a JSON object field list (first occurrence). -/
def lookupField : List (String × Json) → String → Option Json
  | [], _ => none
  | (k, v) :: fs, key => if k = key then some v else lookupField fs key

def asStr : Json → Option String
  | .str s => some s
  | _ => none

def asBool : Json → Option Bool
  | .bool b => some b
  | _ => none

def asNum : Json → Option Int
  | .num n => some n
  | _ => none

def asArr : Json → Option (List Json)
  | .arr xs => some xs
  | _ => none

def decodeSection (j : Json) : Option Section :=
  match j with
  | .obj fs =>
    match lookupField fs "code", lookupField fs "id" with
    | some cj, some ij =>
      match asStr cj, asNum ij with
      | some c, some i => some ⟨c, i⟩
      | _, _ => none
    | _, _ => none
  | _ => none

def decodeSections : List Json → Option (List Section)
  | [] => some []
  | j :: js =>
    match decodeSection j, decodeSections js with
    | some s, some ss => some (s :: ss)
    | _, _ => none

def decodeCalendar (j : Json) : Option Calendar :=
  match j with
  | .obj fs =>
    match (lookupField fs "sections").bind asArr with
    | none => none
    | some sj =>
      match decodeSections sj with
      | none => none
      | some secs =>
        some { uuid := (lookupField fs "uuid").bind asStr
             , uid := (lookupField fs "uid").bind asStr
             , name := (lookupField fs "name").bind asStr
             , sections := secs
             , is_public := (lookupField fs "is_public").bind asBool
             , fromApi := (lookupField fs "fromApi").bind asBool }
  | _ => none

def decodeCalendarList : List Json → Option (List Calendar)
  | [] => some []
  | j :: js =>
    match decodeCalendar j, decodeCalendarList js with
    | some c, some cs => some (c :: cs)
    | _, _ => none

def decodeCalendars (j : Json) : Option (List Calendar) :=
  match j with
  | .arr xs => decodeCalendarList xs
  | _ => none

/-! ## Store state, environment and effects -/

/-- The store module state: `localCalendars`, `apiCalendars` and the
current selection `calendar` (nullable). -/
structure StoreState where
  localCalendars : List Calendar
  apiCalendars : List Calendar
  calendar : Option Calendar
deriving Repr

/-- The pieces of root state the module reads: `rootState.apiUrl` and
`rootState.auth.token` (possibly absent). -/
structure RootState where
  apiUrl : String
  token : Option String
deriving Repr

/-- A network request issued through axios, with its URL and the body
relevant to that endpoint. -/
inductive Request where
  | get (url : String) : Request
  | post (url : String) (body : Calendar) : Request
  | postSections (url : String) (sectionIds : List Int) : Request
  | put (url : String) (body : Calendar) : Request
  | patch (url : String) (is_public : Bool) : Request
  | delete (url : String) : Request
deriving DecidableEq, Repr

/-- The network oracle: for each request, either the `response.data`
calendar object or an error (the rejection carried by the axios
promise). -/
def Net : Type := Request → Except String Calendar

/-- What running one action yields: the new store state, the new value
stored under the local-storage key "calendars" (a JSON tree; `none`
when the key is absent), the ordered list of requests issued, and the
outcome of the returned promise (`Except.error` = rejected,
`Except.ok` = resolved; `ρ` is the resolution value's type). -/
structure ActionOut (ρ : Type) where
  state : StoreState
  storage : Option Json
  requests : List Request
  result : Except String ρ

/-! ## Mutations (as pure list/state transformers) -/

/-- Mutation `removeLocalCalendar`: filter out every entry whose
`uuid` strictly equals the argument's (`undefined !== undefined` is
false, so absent uuids compare equal). -/
def removeLocalCalendarMut (cals : List Calendar) (cal : Calendar) : List Calendar :=
  cals.filter (fun c => c.uuid ≠ cal.uuid)

/-- JavaScript `Array.prototype.findIndex`: index of the first match,
`-1` when none matches. -/
def jsFindIndex (p : α → Bool) : List α → Int
  | [] => -1
  | a :: as =>
    if p a then 0
    else
      match jsFindIndex p as with
      | -1 => -1
      | r => r + 1

/-- JavaScript `Array.prototype.splice(start, 1, item)`: a negative
`start` counts from the end and is clamped at 0; the delete count is
clamped to what remains after `start`. -/
def jsSpliceReplace (l : List α) (start : Int) (item : α) : List α :=
  let len := l.length
  let s : Nat := if start < 0 then (start + len).toNat else min start.toNat len
  let d : Nat := min 1 (len - s)
  l.take s ++ item :: l.drop (s + d)

/-- Mutation `updateLocalCalendar`: find by `uid` (not `uuid`), then
`splice(index, 1, calendar)` — with index `-1` when absent. -/
def updateLocalCalendarMut (cals : List Calendar) (cal : Calendar) : List Calendar :=
  jsSpliceReplace cals (jsFindIndex (fun c => c.uid = cal.uid) cals) cal

/-- Mutation `updateApiCalendar`: find by `uuid`, then
`splice(index, 1, calendar)`. -/
def updateApiCalendarMut (cals : List Calendar) (cal : Calendar) : List Calendar :=
  jsSpliceReplace cals (jsFindIndex (fun c => c.uuid = cal.uuid) cals) cal

/-! ## Actions -/

/-- Action `getLocalCalendars`: parse the stored JSON (absent key
gives `[]` via `?? []`) and commit it as the local list. -/
def getLocalCalendarsAct (st : StoreState) (storage : Option Json) : StoreState :=
  { st with localCalendars := (storage.bind decodeCalendars).getD [] }

/-- Action `saveLocalCalendars`: serialize the current local list and
store it under the key "calendars". -/
def saveLocalCalendarsAct (st : StoreState) : Option Json :=
  some (encodeCalendars st.localCalendars)

/-- Action `setLocalCalendars`: commit the given list, then persist. -/
def setLocalCalendarsAct (st : StoreState) (cals : List Calendar) : StoreState × Option Json :=
  let st1 := { st with localCalendars := cals }
  (st1, saveLocalCalendarsAct st1)

/-- The body of the map inside `addUuidToCalendars`:
`calendar.uuid ? calendar : \x7b uuid: uuidv4(), ...calendar \x7d`, with
`g` the value returned by the `uuidv4()` call. -/
def addUuidOne (g : String) (c : Calendar) : Calendar :=
  if strTruthy c.uuid then c else spreadWithUuid g c

/-- The map inside `addUuidToCalendars`, with `gen i` the `uuidv4()`
result used at position `i`. -/
def addUuidMap (gen : Nat → String) : Nat → List Calendar → List Calendar
  | _, [] => []
  | i, c :: cs => addUuidOne (gen i) c :: addUuidMap gen (i + 1) cs

/-- Action `addUuidToCalendars`: assign a uuid to calendars generated
by previous versions, then dispatch `setLocalCalendars` (which also
persists). -/
def addUuidToCalendarsAct (gen : Nat → String) (st : StoreState) : StoreState × Option Json :=
  setLocalCalendarsAct st (addUuidMap gen 0 st.localCalendars)

/-- Action `saveSharedCalendar`: build
`\x7b uuid: uuidv4(), ...sharedCalendar \x7d` (with `fresh` the `uuidv4()`
result), commit `addLocalCalendar` (push), persist. -/
def saveSharedCalendarAct (fresh : String) (st : StoreState) (cal : Calendar) :
    StoreState × Option Json :=
  let newCalendar := spreadWithUuid fresh cal
  let st1 := { st with localCalendars := st.localCalendars ++ [newCalendar] }
  (st1, saveLocalCalendarsAct st1)

/-- Action `deleteCalendar`: commit `removeLocalCalendar` and persist
first, then attempt the authenticated DELETE; any error from it is
swallowed (try/catch with an empty handler), so the promise resolves
either way. -/
def deleteCalendarAct (root : RootState) (net : Net) (st : StoreState) (cal : Calendar) :
    ActionOut Unit :=
  let st1 := { st with localCalendars := removeLocalCalendarMut st.localCalendars cal }
  let storage1 := saveLocalCalendarsAct st1
  let req := Request.delete (root.apiUrl ++ "/calendars/" ++ jsInterp cal.uuid)
  match net req with
  | .ok _ => ⟨st1, storage1, [req], .ok ()⟩
  | .error _ => ⟨st1, storage1, [req], .ok ()⟩

/-- Action `createCalendar`: with a falsy token, create locally
(`addLocalCalendar` of `\x7b uuid: uuidv4(), ...calendar \x7d`, persist) and
return the input `calendar`; otherwise POST to the API and return
`response.data`, but an error is caught, logged and turns into a
resolution with `undefined` (`Except.ok none`). -/
def createCalendarAct (root : RootState) (net : Net) (fresh : String) (st : StoreState)
    (storage : Option Json) (cal : Calendar) : ActionOut (Option Calendar) :=
  if strTruthy root.token then
    let req := Request.post (root.apiUrl ++ "/calendars") cal
    match net req with
    | .ok resp => ⟨st, storage, [req], .ok (some resp)⟩
    | .error _ => ⟨st, storage, [req], .ok none⟩
  else
    let st1 := { st with localCalendars := st.localCalendars ++ [spreadWithUuid fresh cal] }
    ⟨st1, saveLocalCalendarsAct st1, [], .ok (some cal)⟩

/-- Action `updateCalendar`: with `fromApi` falsy, commit
`updateLocalCalendar` and persist (no request, resolves `undefined`);
with `fromApi` truthy, PUT the calendar, then POST the section ids,
return the PUT's `response.data`; any error in the try block is caught,
logged and turns into a resolution with `undefined`. -/
def updateCalendarAct (root : RootState) (net : Net) (st : StoreState) (storage : Option Json)
    (cal : Calendar) : ActionOut (Option Calendar) :=
  if boolTruthy cal.fromApi then
    let putReq := Request.put (root.apiUrl ++ "/calendars/" ++ jsInterp cal.uuid) cal
    match net putReq with
    | .error _ => ⟨st, storage, [putReq], .ok none⟩
    | .ok resp =>
      let postReq := Request.postSections
        (root.apiUrl ++ "/calendars/" ++ jsInterp cal.uuid ++ "/sections")
        (cal.sections.map Section.id)
      match net postReq with
      | .error _ => ⟨st, storage, [putReq, postReq], .ok none⟩
      | .ok _ => ⟨st, storage, [putReq, postReq], .ok (some resp)⟩
  else
    let st1 := { st with localCalendars := updateLocalCalendarMut st.localCalendars cal }
    ⟨st1, saveLocalCalendarsAct st1, [], .ok none⟩

/-- Action `togglePrivacy`: look the uuid up in the API list; when
absent, reject with "Calendar not found" before any request; otherwise
PATCH the inverted `is_public`, tag the response `fromApi: true`,
commit `updateApiCalendar` and `setCalendar`, and resolve with the
tagged response (an awaited PATCH error rejects the promise). -/
def togglePrivacyAct (root : RootState) (net : Net) (st : StoreState) (storage : Option Json)
    (uuid : String) : ActionOut Calendar :=
  match st.apiCalendars.find? (fun c => c.uuid = some uuid) with
  | none => ⟨st, storage, [], .error "Calendar not found"⟩
  | some cal =>
    let req := Request.patch (root.apiUrl ++ "/calendars/" ++ uuid) (!(boolTruthy cal.is_public))
    match net req with
    | .error e => ⟨st, storage, [req], .error e⟩
    | .ok resp =>
      let apiCalendar := { resp with fromApi := some true }
      let st1 := { st with
        apiCalendars := updateApiCalendarMut st.apiCalendars apiCalendar
        calendar := some apiCalendar }
      ⟨st1, storage, [req], .ok apiCalendar⟩

/-! ## Router -/

/-- One segment of a route pattern: a literal or a `:param`. -/
inductive SegPat where
  | lit (s : String) : SegPat
  | param : SegPat
deriving DecidableEq, Repr

/-- A route's path pattern: a fixed list of segments, or the wildcard
`/:pathMatch(.*)*` catch-all. -/
inductive RoutePath where
  | segs (ps : List SegPat) : RoutePath
  | catchAll : RoutePath
deriving DecidableEq, Repr

/-- One record of the route table: the raw path string from the
source, the route name, the parsed pattern, and whether the route
carries the `onlyGuests` beforeEnter guard. -/
structure RouteRecord where
  path : String
  name : String
  pattern : RoutePath
  onlyGuests : Bool
deriving DecidableEq, Repr

/-- The route table of `src/router`, in source order. -/
def routes : List RouteRecord :=
  [ ⟨"/", "home", .segs [], false⟩
  , ⟨"/f", "files.index", .segs [.lit "f"], false⟩
  , ⟨"/c", "calendars.index", .segs [.lit "c"], false⟩
  , ⟨"/c/:uuid", "calendars.show", .segs [.lit "c", .param], false⟩
  , ⟨"/c/:uuid/edit", "calendars.edit", .segs [.lit "c", .param, .lit "edit"], false⟩
  , ⟨"/login", "login", .segs [.lit "login"], true⟩
  , ⟨"/registration", "registration", .segs [.lit "registration"], true⟩
  , ⟨"/password-recovery", "password-recovery", .segs [.lit "password-recovery"], true⟩
  , ⟨"/:pathMatch(.*)*", "not-found", .catchAll, false⟩ ]

def segMatches : SegPat → String → Bool
  | .lit s, seg => s = seg
  | .param, _ => true

def segsMatch : List SegPat → List String → Bool
  | [], [] => true
  | p :: ps, s :: ss => segMatches p s && segsMatch ps ss
  | _, _ => false

/-- Whether a pattern matches a path (given as its segment list). -/
def routeMatches : RoutePath → List String → Bool
  | .segs ps, path => segsMatch ps path
  | .catchAll, _ => true

/-- Resolve a path against a route table: the first matching record. -/
def resolveRoute (rs : List RouteRecord) (path : List String) : Option RouteRecord :=
  rs.find? (fun r => routeMatches r.pattern path)

/-! ## Auxiliary lemmas -/

theorem decode_encode_section (s : Section) : decodeSection (encodeSection s) = some s := by
  cases s
  rfl

theorem decode_encode_sections (ss : List Section) :
    decodeSections (ss.map encodeSection) = some ss := by
  induction ss with
  | nil => rfl
  | cons s ss ih => simp [decodeSections, decode_encode_section, ih]

theorem decode_encode_calendar (c : Calendar) :
    decodeCalendar (encodeCalendar c) = some c := by
  rcases c with ⟨u, d, n, ss, p, f⟩
  cases u <;> cases d <;> cases n <;> cases p <;> cases f <;>
    simp [encodeCalendar, decodeCalendar, optField, lookupField,
      decode_encode_sections, asStr, asBool, asArr]

theorem decode_encode_calendarList (cs : List Calendar) :
    decodeCalendarList (cs.map encodeCalendar) = some cs := by
  induction cs with
  | nil => rfl
  | cons c cs ih => simp [decodeCalendarList, decode_encode_calendar, ih]

theorem decode_encode_calendars (cs : List Calendar) :
    decodeCalendars (encodeCalendars cs) = some cs := by
  simp [decodeCalendars, encodeCalendars, decode_encode_calendarList]

/-- The spread `\x7b uuid: fresh, ...c \x7d` leaves `c` unchanged whenever
`c` carries a `uuid` property (of any value): the spread overrides the
fresh one. -/
theorem spreadWithUuid_of_isSome (g : String) (c : Calendar) (h : c.uuid.isSome) :
    spreadWithUuid g c = c := by
  rcases c with ⟨u, d, n, ss, p, f⟩
  cases u with
  | none => simp at h
  | some s => simp [spreadWithUuid]

theorem addUuidOne_uuid_isSome (g : String) (c : Calendar) :
    (addUuidOne g c).uuid.isSome := by
  unfold addUuidOne
  split
  · rename_i h
    cases hu : c.uuid with
    | none => rw [hu] at h; simp [strTruthy] at h
    | some s => simp [hu]
  · simp [spreadWithUuid]

theorem addUuidOne_of_isSome (g : String) (c : Calendar) (h : c.uuid.isSome) :
    addUuidOne g c = c := by
  unfold addUuidOne
  split
  · rfl
  · exact spreadWithUuid_of_isSome g c h

theorem addUuidOne_idem (g g' : String) (c : Calendar) :
    addUuidOne g' (addUuidOne g c) = addUuidOne g c :=
  addUuidOne_of_isSome g' _ (addUuidOne_uuid_isSome g c)

theorem addUuidMap_idem (gen1 gen2 : Nat → String) (cs : List Calendar) (i j : Nat) :
    addUuidMap gen2 j (addUuidMap gen1 i cs) = addUuidMap gen1 i cs := by
  induction cs generalizing i j with
  | nil => rfl
  | cons c cs ih => simp [addUuidMap, addUuidOne_idem, ih]

theorem addUuidMap_get_of_isSome (gen : Nat → String) (cs : List Calendar) (i j : Nat)
    (c : Calendar) (hc : cs[j]? = some c) (hs : c.uuid.isSome) :
    (addUuidMap gen i cs)[j]? = some c := by
  induction cs generalizing i j with
  | nil => simp at hc
  | cons a as ih =>
    cases j with
    | zero =>
      simp at hc
      subst hc
      simp [addUuidMap, addUuidOne_of_isSome _ _ hs]
    | succ j =>
      simp at hc
      simpa [addUuidMap] using ih (i + 1) j hc

/-- `findIndex` returns `-1` when no element satisfies the predicate. -/
theorem jsFindIndex_eq_neg_one (p : α → Bool) (l : List α) (h : ∀ a ∈ l, p a = false) :
    jsFindIndex p l = -1 := by
  induction l with
  | nil => rfl
  | cons a as ih =>
    have ha := h a (List.mem_cons_self a as)
    have hrest := ih (fun x hx => h x (List.mem_cons_of_mem a hx))
    simp [jsFindIndex, ha, hrest]

/-- `splice(-1, 1, item)`: replaces the last element of a non-empty
array, inserts into an empty one. -/
theorem jsSpliceReplace_neg_one (l : List α) (x : α) :
    jsSpliceReplace l (-1) x = if l.isEmpty then [x] else l.dropLast ++ [x] := by
  cases l with
  | nil => rfl
  | cons a as =>
    simp only [jsSpliceReplace, List.isEmpty_cons, Bool.false_eq_true, if_false]
    rw [if_pos (show (-1 : Int) < 0 by decide)]
    have hs : ((-1 : Int) + ((a :: as).length : Int)).toNat = as.length := by
      simp only [List.length_cons]
      omega
    rw [hs]
    have hd : min 1 ((a :: as).length - as.length) = 1 := by
      simp only [List.length_cons]
      omega
    rw [hd]
    rw [show as.length + 1 = (a :: as).length from by simp]
    rw [List.drop_length]
    rw [List.dropLast_eq_take]
    simp

/-! ## Claim theorems -/

/-- C8: for every calendar list held in the store, writing it via
`saveLocalCalendars` (JSON under the key "calendars") and reading back
via `getLocalCalendars` yields a list equal to the one written. -/
theorem save_get_localCalendars_roundtrip (st : StoreState) :
    (getLocalCalendarsAct st (saveLocalCalendarsAct st)).localCalendars
      = st.localCalendars := by
  simp [getLocalCalendarsAct, saveLocalCalendarsAct, Option.bind,
    decode_encode_calendars]

/-- C7: `addUuidToCalendars` is idempotent — dispatching it twice
leaves the local list exactly as after the first dispatch (hence the
same uuids), and every calendar that already carries a `uuid` property
is kept unchanged at its position. -/
theorem addUuidToCalendars_idempotent (gen1 gen2 : Nat → String) (st : StoreState) :
    ((addUuidToCalendarsAct gen2 (addUuidToCalendarsAct gen1 st).1).1.localCalendars
        = (addUuidToCalendarsAct gen1 st).1.localCalendars)
    ∧ ∀ (j : Nat) (c : Calendar), st.localCalendars[j]? = some c → c.uuid.isSome →
        (addUuidToCalendarsAct gen1 st).1.localCalendars[j]? = some c := by
  constructor
  · simp [addUuidToCalendarsAct, setLocalCalendarsAct, addUuidMap_idem]
  · intro j c hc hs
    simpa [addUuidToCalendarsAct, setLocalCalendarsAct] using
      addUuidMap_get_of_isSome gen1 st.localCalendars 0 j c hc hs

/-- Witness for C7: a concrete one-element store whose calendar
already has a uuid. -/
theorem addUuidToCalendars_idempotent_witness :
    ((addUuidToCalendarsAct (fun n => "w" ++ toString n)
        (addUuidToCalendarsAct (fun n => "v" ++ toString n)
          ⟨[⟨some "a", none, none, [], none, none⟩], [], none⟩).1).1.localCalendars
      = (addUuidToCalendarsAct (fun n => "v" ++ toString n)
          ⟨[⟨some "a", none, none, [], none, none⟩], [], none⟩).1.localCalendars)
    ∧ (addUuidToCalendarsAct (fun n => "v" ++ toString n)
          ⟨[⟨some "a", none, none, [], none, none⟩], [], none⟩).1.localCalendars[0]?
        = some ⟨some "a", none, none, [], none, none⟩ :=
  ⟨(addUuidToCalendars_idempotent (fun n => "v" ++ toString n) (fun n => "w" ++ toString n)
      ⟨[⟨some "a", none, none, [], none, none⟩], [], none⟩).1,
   (addUuidToCalendars_idempotent (fun n => "v" ++ toString n) (fun n => "w" ++ toString n)
      ⟨[⟨some "a", none, none, [], none, none⟩], [], none⟩).2 0
      ⟨some "a", none, none, [], none, none⟩ rfl rfl⟩

/-- C4: `deleteCalendar` removes the calendar from the local list by
uuid and persists the filtered list, and its promise resolves — all of
it whatever the remote DELETE returns (the network oracle is
arbitrary, and the output does not depend on it). -/
theorem deleteCalendar_local_removal (root : RootState) (net : Net) (st : StoreState)
    (cal : Calendar) :
    (∀ c ∈ (deleteCalendarAct root net st cal).state.localCalendars, c.uuid ≠ cal.uuid)
    ∧ (deleteCalendarAct root net st cal).state.localCalendars
        = removeLocalCalendarMut st.localCalendars cal
    ∧ (deleteCalendarAct root net st cal).storage
        = some (encodeCalendars (removeLocalCalendarMut st.localCalendars cal))
    ∧ (deleteCalendarAct root net st cal).result = Except.ok () := by
  have hout : deleteCalendarAct root net st cal
      = ⟨{ st with localCalendars := removeLocalCalendarMut st.localCalendars cal },
          some (encodeCalendars (removeLocalCalendarMut st.localCalendars cal)),
          [Request.delete (root.apiUrl ++ "/calendars/" ++ jsInterp cal.uuid)],
          Except.ok ()⟩ := by
    simp only [deleteCalendarAct, saveLocalCalendarsAct]
    split <;> rfl
  refine ⟨?_, by rw [hout], by rw [hout], by rw [hout]⟩
  intro c hc
  rw [hout] at hc
  simp only [removeLocalCalendarMut, List.mem_filter] at hc
  simpa using hc.2

/-- Witness for C4: deleting a present calendar while the network is
down still empties and persists the local list, and the promise
resolves. -/
theorem deleteCalendar_local_removal_witness :
    (deleteCalendarAct ⟨"api", some "t"⟩ (fun _ => Except.error "down")
        ⟨[⟨some "x", none, none, [], none, none⟩], [], none⟩
        ⟨some "x", none, none, [], none, none⟩).state.localCalendars
      = removeLocalCalendarMut [⟨some "x", none, none, [], none, none⟩]
          ⟨some "x", none, none, [], none, none⟩
    ∧ (deleteCalendarAct ⟨"api", some "t"⟩ (fun _ => Except.error "down")
        ⟨[⟨some "x", none, none, [], none, none⟩], [], none⟩
        ⟨some "x", none, none, [], none, none⟩).result = Except.ok () :=
  ⟨(deleteCalendar_local_removal _ _ _ _).2.1,
   (deleteCalendar_local_removal _ _ _ _).2.2.2⟩

/-- C5: `togglePrivacy` on a uuid absent from the API list rejects
with "Calendar not found", issues no request, and leaves the store
state and the storage untouched. -/
theorem togglePrivacy_unknown_uuid (root : RootState) (net : Net) (st : StoreState)
    (storage : Option Json) (uuid : String)
    (h : ∀ c ∈ st.apiCalendars, c.uuid ≠ some uuid) :
    togglePrivacyAct root net st storage uuid
      = ⟨st, storage, [], Except.error "Calendar not found"⟩ := by
  have hfind : st.apiCalendars.find? (fun c => c.uuid = some uuid) = none := by
    rw [List.find?_eq_none]
    intro c hc
    simpa using h c hc
  simp [togglePrivacyAct, hfind]

/-- Witness for C5: a store whose API list holds one calendar with a
different uuid. -/
theorem togglePrivacy_unknown_uuid_witness :
    togglePrivacyAct ⟨"api", some "t"⟩ (fun _ => Except.error "down")
        ⟨[], [⟨some "y", none, none, [], none, none⟩], none⟩ none "x"
      = ⟨⟨[], [⟨some "y", none, none, [], none, none⟩], none⟩, none, [],
          Except.error "Calendar not found"⟩ :=
  togglePrivacy_unknown_uuid _ _ _ _ _ (by simp)

/-- Counterexample to C1: with a token present and a network oracle
that fails every request, `createCalendar` still issues the POST but
its promise RESOLVES (with `undefined`, i.e. `Except.ok none`) instead
of rejecting — the catch block swallows the failure. -/
theorem createCalendar_api_failure_cex :
    (createCalendarAct ⟨"api", some "tok"⟩ (fun _ => Except.error "network down") "fresh"
        ⟨[], [], none⟩ none ⟨none, none, some "A", [], none, none⟩).requests
      = [Request.post "api/calendars" ⟨none, none, some "A", [], none, none⟩]
    ∧ (createCalendarAct ⟨"api", some "tok"⟩ (fun _ => Except.error "network down") "fresh"
        ⟨[], [], none⟩ none ⟨none, none, some "A", [], none, none⟩).result
      = Except.ok none :=
  ⟨rfl, rfl⟩

/-- C1 (amended): with a truthy token and a failing POST,
`createCalendar` issues exactly that POST, leaves the store state and
the storage unchanged (so there is no partial update), and its promise
resolves with `undefined` — the failure is logged and swallowed, not
propagated to the caller. -/
theorem createCalendar_api_failure (root : RootState) (net : Net) (fresh : String)
    (st : StoreState) (storage : Option Json) (cal : Calendar) (e : String)
    (htok : strTruthy root.token = true)
    (hfail : net (Request.post (root.apiUrl ++ "/calendars") cal) = Except.error e) :
    createCalendarAct root net fresh st storage cal
      = ⟨st, storage, [Request.post (root.apiUrl ++ "/calendars") cal], Except.ok none⟩ := by
  simp [createCalendarAct, htok, hfail]

/-- Witness for C1 (amended) at a concrete store, token and failing
oracle. -/
theorem createCalendar_api_failure_witness :
    createCalendarAct ⟨"api", some "tok"⟩ (fun _ => Except.error "network down") "fresh"
        ⟨[], [], none⟩ none ⟨none, none, some "A", [], none, none⟩
      = ⟨⟨[], [], none⟩, none,
          [Request.post "api/calendars" ⟨none, none, some "A", [], none, none⟩],
          Except.ok none⟩ :=
  createCalendar_api_failure _ _ _ _ _ _ "network down" rfl rfl

/-- Counterexample to C2: with no token, `createCalendar` on a
calendar that lacks a uuid resolves with that very input calendar —
whose `uuid` property is still absent — not with the input augmented
by the freshly generated uuid ("fresh-uuid" here). -/
theorem createCalendar_local_return_cex :
    (createCalendarAct ⟨"api", none⟩ (fun _ => Except.error "down") "fresh-uuid"
        ⟨[], [], none⟩ none ⟨none, none, some "A", [], none, none⟩).result
      = Except.ok (some ⟨none, none, some "A", [], none, none⟩)
    ∧ (⟨none, none, some "A", [], none, none⟩ : Calendar).uuid = none :=
  ⟨rfl, rfl⟩

/-- C2 (amended): with a falsy token, `createCalendar` issues no
request, appends `\x7b uuid: uuidv4(), ...calendar \x7d` to the local list
(the fresh uuid is kept only when the input lacks one), persists the
new list, and returns the input calendar itself, unchanged. -/
theorem createCalendar_no_token (root : RootState) (net : Net) (fresh : String)
    (st : StoreState) (storage : Option Json) (cal : Calendar)
    (htok : strTruthy root.token = false) :
    createCalendarAct root net fresh st storage cal
      = ⟨{ st with localCalendars := st.localCalendars ++ [spreadWithUuid fresh cal] },
          some (encodeCalendars (st.localCalendars ++ [spreadWithUuid fresh cal])), [],
          Except.ok (some cal)⟩ := by
  simp [createCalendarAct, htok, saveLocalCalendarsAct]

/-- Witness for C2 (amended) at a concrete tokenless store. -/
theorem createCalendar_no_token_witness :
    createCalendarAct ⟨"api", none⟩ (fun _ => Except.error "down") "fresh-uuid"
        ⟨[], [], none⟩ none ⟨none, none, some "A", [], none, none⟩
      = ⟨⟨[spreadWithUuid "fresh-uuid" ⟨none, none, some "A", [], none, none⟩], [], none⟩,
          some (encodeCalendars
            [spreadWithUuid "fresh-uuid" ⟨none, none, some "A", [], none, none⟩]),
          [], Except.ok (some ⟨none, none, some "A", [], none, none⟩)⟩ :=
  createCalendar_no_token _ _ _ _ _ _ rfl

/-- Counterexample to C3: `saveSharedCalendar` on an input that
already carries uuid "x" appends that input unchanged — the spread
`\x7b uuid: uuidv4(), ...sharedCalendar \x7d` lets the input's uuid override
the freshly generated "fresh", so the appended uuid is NOT distinct
from the one the input carried. -/
theorem saveSharedCalendar_keeps_input_uuid_cex :
    (saveSharedCalendarAct "fresh" ⟨[], [], none⟩
        ⟨some "x", none, none, [], none, none⟩).1.localCalendars
      = [⟨some "x", none, none, [], none, none⟩]
    ∧ ("x" : String) ≠ "fresh" :=
  ⟨rfl, by decide⟩

/-- C3 (amended): `saveSharedCalendar` appends
`\x7b uuid: uuidv4(), ...sharedCalendar \x7d` to the local list and persists
it; the appended copy's uuid is the freshly generated one only when
the input carries no uuid property, otherwise it is the input's own. -/
theorem saveSharedCalendar_appends (fresh : String) (st : StoreState) (cal : Calendar) :
    (saveSharedCalendarAct fresh st cal).1.localCalendars
        = st.localCalendars ++ [spreadWithUuid fresh cal]
    ∧ (spreadWithUuid fresh cal).uuid = some (cal.uuid.getD fresh)
    ∧ (saveSharedCalendarAct fresh st cal).2
        = some (encodeCalendars (st.localCalendars ++ [spreadWithUuid fresh cal])) :=
  ⟨rfl, rfl, rfl⟩

/-- C6: `updateCalendar` with `fromApi` falsy issues no request — it
applies the `updateLocalCalendar` mutation and persists; with
`fromApi` truthy and both requests succeeding it issues exactly the
PUT followed by the sections POST, in that order, resolves with the
PUT's `response.data`, and the sections response (`resp2`, arbitrary)
is discarded. -/
theorem updateCalendar_requests (root : RootState) (net : Net) (st : StoreState)
    (storage : Option Json) (cal : Calendar) :
    (boolTruthy cal.fromApi = false →
      updateCalendarAct root net st storage cal
        = ⟨{ st with localCalendars := updateLocalCalendarMut st.localCalendars cal },
            some (encodeCalendars (updateLocalCalendarMut st.localCalendars cal)), [],
            Except.ok none⟩)
    ∧ (boolTruthy cal.fromApi = true →
        ∀ (resp resp2 : Calendar),
          net (Request.put (root.apiUrl ++ "/calendars/" ++ jsInterp cal.uuid) cal)
            = Except.ok resp →
          net (Request.postSections
              (root.apiUrl ++ "/calendars/" ++ jsInterp cal.uuid ++ "/sections")
              (cal.sections.map Section.id)) = Except.ok resp2 →
          updateCalendarAct root net st storage cal
            = ⟨st, storage,
                [Request.put (root.apiUrl ++ "/calendars/" ++ jsInterp cal.uuid) cal,
                 Request.postSections
                   (root.apiUrl ++ "/calendars/" ++ jsInterp cal.uuid ++ "/sections")
                   (cal.sections.map Section.id)],
                Except.ok (some resp)⟩) := by
  constructor
  · intro h
    simp [updateCalendarAct, h, saveLocalCalendarsAct]
  · intro h resp resp2 h1 h2
    simp [updateCalendarAct, h, h1, h2]

/-- Witness for C6: one concrete local-branch run (no request) and one
concrete API-branch run (PUT then sections POST, PUT response kept). -/
theorem updateCalendar_requests_witness :
    (updateCalendarAct ⟨"api", some "t"⟩
        (fun r => match r with
          | Request.put _ _ => Except.ok ⟨some "r", none, none, [], none, none⟩
          | Request.postSections _ _ => Except.ok ⟨some "s", none, none, [], none, none⟩
          | _ => Except.error "other")
        ⟨[], [], none⟩ none ⟨some "v", some "w", none, [], none, none⟩
      = ⟨⟨updateLocalCalendarMut [] ⟨some "v", some "w", none, [], none, none⟩, [], none⟩,
          some (encodeCalendars
            (updateLocalCalendarMut [] ⟨some "v", some "w", none, [], none, none⟩)),
          [], Except.ok none⟩)
    ∧ (updateCalendarAct ⟨"api", some "t"⟩
        (fun r => match r with
          | Request.put _ _ => Except.ok ⟨some "r", none, none, [], none, none⟩
          | Request.postSections _ _ => Except.ok ⟨some "s", none, none, [], none, none⟩
          | _ => Except.error "other")
        ⟨[], [], none⟩ none ⟨some "u", none, none, [⟨"c1", 7⟩], none, some true⟩
      = ⟨⟨[], [], none⟩, none,
          [Request.put "api/calendars/u" ⟨some "u", none, none, [⟨"c1", 7⟩], none, some true⟩,
           Request.postSections "api/calendars/u/sections" [7]],
          Except.ok (some ⟨some "r", none, none, [], none, none⟩)⟩) :=
  ⟨(updateCalendar_requests ⟨"api", some "t"⟩
      (fun r => match r with
        | Request.put _ _ => Except.ok ⟨some "r", none, none, [], none, none⟩
        | Request.postSections _ _ => Except.ok ⟨some "s", none, none, [], none, none⟩
        | _ => Except.error "other")
      ⟨[], [], none⟩ none ⟨some "v", some "w", none, [], none, none⟩).1 rfl,
   (updateCalendar_requests ⟨"api", some "t"⟩
      (fun r => match r with
        | Request.put _ _ => Except.ok ⟨some "r", none, none, [], none, none⟩
        | Request.postSections _ _ => Except.ok ⟨some "s", none, none, [], none, none⟩
        | _ => Except.error "other")
      ⟨[], [], none⟩ none ⟨some "u", none, none, [⟨"c1", 7⟩], none, some true⟩).2 rfl
     ⟨some "r", none, none, [], none, none⟩ ⟨some "s", none, none, [], none, none⟩ rfl rfl⟩

/-- C9: exactly the three auth paths /login, /registration and
/password-recovery carry the `onlyGuests` guard; the catch-all
not-found route is registered last; and any path matched by none of
the declared (non-wildcard) routes resolves to the not-found route. -/
theorem router_guards_and_fallback :
    ((routes.filter (fun r => r.onlyGuests)).map (fun r => r.path)
        = ["/login", "/registration", "/password-recovery"])
    ∧ routes.getLast? = some ⟨"/:pathMatch(.*)*", "not-found", RoutePath.catchAll, false⟩
    ∧ ∀ path : List String,
        (∀ r ∈ routes.dropLast, routeMatches r.pattern path = false) →
        resolveRoute routes path
          = some ⟨"/:pathMatch(.*)*", "not-found", RoutePath.catchAll, false⟩ := by
  refine ⟨rfl, rfl, ?_⟩
  intro path h
  have h0 := h ⟨"/", "home", RoutePath.segs [], false⟩ (by simp [routes])
  have h1 := h ⟨"/f", "files.index", RoutePath.segs [SegPat.lit "f"], false⟩ (by simp [routes])
  have h2 := h ⟨"/c", "calendars.index", RoutePath.segs [SegPat.lit "c"], false⟩
    (by simp [routes])
  have h3 := h ⟨"/c/:uuid", "calendars.show",
    RoutePath.segs [SegPat.lit "c", SegPat.param], false⟩ (by simp [routes])
  have h4 := h ⟨"/c/:uuid/edit", "calendars.edit",
    RoutePath.segs [SegPat.lit "c", SegPat.param, SegPat.lit "edit"], false⟩ (by simp [routes])
  have h5 := h ⟨"/login", "login", RoutePath.segs [SegPat.lit "login"], true⟩ (by simp [routes])
  have h6 := h ⟨"/registration", "registration",
    RoutePath.segs [SegPat.lit "registration"], true⟩ (by simp [routes])
  have h7 := h ⟨"/password-recovery", "password-recovery",
    RoutePath.segs [SegPat.lit "password-recovery"], true⟩ (by simp [routes])
  simp only [routeMatches] at h0 h1 h2 h3 h4 h5 h6 h7
  simp [resolveRoute, routes, List.find?, h0, h1, h2, h3, h4, h5, h6, h7, routeMatches]

/-- Witness for C9: the unmatched path "/zzz" resolves to not-found. -/
theorem router_guards_and_fallback_witness :
    resolveRoute routes ["zzz"]
      = some ⟨"/:pathMatch(.*)*", "not-found", RoutePath.catchAll, false⟩ :=
  router_guards_and_fallback.2.2 ["zzz"] (by decide)

/-- C10: when no entry's `uid` equals the argument's `uid` (the
mutation compares `uid`, not `uuid`), `findIndex` yields -1 and
`splice(-1, 1, cal)` replaces the LAST element of a non-empty local
list (and inserts into an empty one) — the list is never left
unchanged, so an update targeting an absent calendar overwrites an
unrelated entry. -/
theorem updateLocalCalendar_absent_uid (cals : List Calendar) (cal : Calendar)
    (h : ∀ c ∈ cals, c.uid ≠ cal.uid) :
    updateLocalCalendarMut cals cal
        = (if cals.isEmpty then [cal] else cals.dropLast ++ [cal])
    ∧ updateLocalCalendarMut cals cal ≠ cals := by
  have hfind : jsFindIndex (fun c => c.uid = cal.uid) cals = -1 :=
    jsFindIndex_eq_neg_one _ _ (fun a ha => by simpa using h a ha)
  have heq : updateLocalCalendarMut cals cal
      = if cals.isEmpty then [cal] else cals.dropLast ++ [cal] := by
    rw [updateLocalCalendarMut, hfind, jsSpliceReplace_neg_one]
  refine ⟨heq, ?_⟩
  rw [heq]
  cases cals with
  | nil => simp
  | cons a as =>
    simp only [List.isEmpty_cons, Bool.false_eq_true, if_false]
    intro hcontra
    have hmem : cal ∈ a :: as := by
      rw [← hcontra]
      exact List.mem_append_right _ (List.mem_singleton.mpr rfl)
    exact h cal hmem rfl

/-- Witness for C10: a one-element list with `uid` "a" and an update
carrying `uid` "b" — the sole (last) element is overwritten. -/
theorem updateLocalCalendar_absent_uid_witness :
    updateLocalCalendarMut [⟨some "p", some "a", none, [], none, none⟩]
        ⟨some "q", some "b", none, [], none, none⟩
      = [⟨some "q", some "b", none, [], none, none⟩]
    ∧ updateLocalCalendarMut [⟨some "p", some "a", none, [], none, none⟩]
        ⟨some "q", some "b", none, [], none, none⟩
      ≠ [⟨some "p", some "a", none, [], none, none⟩] :=
  ⟨(updateLocalCalendar_absent_uid _ _ (by decide)).1,
   (updateLocalCalendar_absent_uid _ _ (by decide)).2⟩

end Duocmatico
